import Mathlib

/-!
Verification of the welcome-email backend (`src/server.js` plus the
`mensagem.js` template module) against its natural-language specification.

The development shallowly embeds the `POST /send-welcome` request handler:

* JavaScript string primitives used by the handler: truthiness,
  `String.prototype.trim`, UTF-16 `length`, `RegExp.prototype.test` for the
  literal email regex, and `String.prototype.replace` with a global pattern
  (including `$$`, `$&`, dollar-backquote and dollar-quote replacement patterns);
* the three template strings exported by the message module, copied verbatim;
* the handler itself as a pure function from the two body fields and the
  outcome of the external send capability to the HTTP response it emits,
  together with whether the capability was invoked and what was rendered.
-/

/-- Character class of ECMAScript whitespace: the set matched by `\s` in a
regular expression, which is also exactly the set stripped by
`String.prototype.trim` (WhiteSpace plus LineTerminator). -/
def isJsWhitespace (c : Char) : Bool :=
  let n := c.toNat
  n = 0x9 || n = 0xa || n = 0xb || n = 0xc || n = 0xd || n = 0x20 ||
  n = 0xa0 || n = 0x1680 || (0x2000 ≤ n && n ≤ 0x200a) || n = 0x2028 ||
  n = 0x2029 || n = 0x202f || n = 0x205f || n = 0x3000 || n = 0xfeff

/-- The character class `[^\s@]` of the email regex in `server.js` line 86. -/
def isEmailChar (c : Char) : Bool :=
  !(isJsWhitespace c) && c ≠ '@'

/-- Model of `String.prototype.trim`: strip leading and trailing
ECMAScript whitespace. -/
def jsTrim (s : String) : String :=
  ⟨((s.data.dropWhile isJsWhitespace).reverse.dropWhile isJsWhitespace).reverse⟩

/-- Model of the JavaScript `length` of a string: the number of UTF-16 code
units, counting characters above U+FFFF twice. -/
def utf16Len (s : String) : Nat :=
  (s.data.map (fun c => if c.toNat < 0x10000 then 1 else 2)).sum

/-- Boolean test that the first list is a prefix of the second. -/
def startsList : List Char → List Char → Bool
  | [], _ => true
  | _ :: _, [] => false
  | a :: as, b :: bs => a == b && startsList as bs

/-- Boolean test that `tok` occurs as a contiguous sublist of the second
argument. -/
def containsTok (tok : List Char) : List Char → Bool
  | [] => startsList tok []
  | c :: rest => startsList tok (c :: rest) || containsTok tok rest

/-- Boolean test that the first list is a suffix of the second. -/
def endsList (t s : List Char) : Bool :=
  startsList t.reverse s.reverse

/-! ## A small regular-expression language

Sufficient to express the email pattern of `server.js` line 86:
character classes, one-or-more repetition of a class, concatenation and
alternation. Matching is by Brzozowski derivatives, so the matcher is a
plain structurally recursive function. -/

/-- Regular expressions over single-character classes. `many1 p` is `p+`. -/
inductive RE where
  | eps : RE
  | fail : RE
  | cls (p : Char → Bool) : RE
  | many1 (p : Char → Bool) : RE
  | cat (r1 r2 : RE) : RE
  | alt (r1 r2 : RE) : RE

/-- Whether the regular expression accepts the empty string. -/
def RE.nullable : RE → Bool
  | .eps => true
  | .fail => false
  | .cls _ => false
  | .many1 _ => false
  | .cat r1 r2 => r1.nullable && r2.nullable
  | .alt r1 r2 => r1.nullable || r2.nullable

/-- Brzozowski derivative of a regular expression by one character. -/
def RE.deriv : RE → Char → RE
  | .eps, _ => .fail
  | .fail, _ => .fail
  | .cls p, c => if p c then .eps else .fail
  | .many1 p, c => if p c then .alt .eps (.many1 p) else .fail
  | .cat r1 r2, c =>
      if r1.nullable then .alt (.cat (r1.deriv c) r2) (r2.deriv c)
      else .cat (r1.deriv c) r2
  | .alt r1 r2, c => .alt (r1.deriv c) (r2.deriv c)

/-- Executable anchored match of a whole character list. -/
def RE.rmatch (r : RE) (l : List Char) : Bool :=
  (l.foldl RE.deriv r).nullable

/-- Language semantics of the regular-expression type. -/
def RE.Lang : RE → List Char → Prop
  | .eps, l => l = []
  | .fail, _ => False
  | .cls p, l => ∃ c, l = [c] ∧ p c = true
  | .many1 p, l => l ≠ [] ∧ ∀ c ∈ l, p c = true
  | .cat r1 r2, l => ∃ l1 l2, l = l1 ++ l2 ∧ RE.Lang r1 l1 ∧ RE.Lang r2 l2
  | .alt r1 r2, l => RE.Lang r1 l ∨ RE.Lang r2 l

/-- The email regex of `server.js` line 86, `[^\s@]+@[^\s@]+\.[^\s@]+`
(anchored on both sides, as in the source). -/
def emailRE : RE :=
  .cat (.many1 isEmailChar)
    (.cat (.cls (fun c => c == '@'))
      (.cat (.many1 isEmailChar)
        (.cat (.cls (fun c => c == '.')) (.many1 isEmailChar))))

/-- Model of `emailRegex.test(email)` from `server.js` line 87. -/
def emailRegexTest (s : String) : Bool :=
  emailRE.rmatch s.data

/-- Stated from the specification's words: the accepted email shape is one or
more characters that are neither whitespace nor `@`, then `@`, then one or
more such characters, then `.`, then one or more such characters. -/
def emailShapeSpec (s : String) : Prop :=
  ∃ a b c : List Char,
    s.data = a ++ '@' :: (b ++ '.' :: c) ∧
    a ≠ [] ∧ b ≠ [] ∧ c ≠ [] ∧
    (∀ x ∈ a, isEmailChar x = true) ∧
    (∀ x ∈ b, isEmailChar x = true) ∧
    (∀ x ∈ c, isEmailChar x = true)

/-! ## Model of `String.prototype.replace` with a global pattern

`server.js` lines 110 and 111 call `replace(/{{nome}}/g, nome.trim())`.
The pattern is a fixed literal, so matching is plain substring search, but
the replacement string is still subject to ECMAScript `GetSubstitution`:
`$$`, `$&`, dollar-backquote and dollar-quote are special, any other `$`
is literal. -/

/-- ECMAScript `GetSubstitution` for a groupless pattern: expand the
replacement text `repl` given the matched text, the part of the original
string before the match and the part after it. -/
def expandReplacement (matched before after : List Char) : List Char → List Char
  | [] => []
  | c :: rest =>
    if c = '$' then
      match rest with
      | [] => [c]
      | d :: rest' =>
        if d = '$' then '$' :: expandReplacement matched before after rest'
        else if d = '&' then matched ++ expandReplacement matched before after rest'
        else if d = '\x60' then before ++ expandReplacement matched before after rest'
        else if d = '\'' then after ++ expandReplacement matched before after rest'
        else c :: d :: expandReplacement matched before after rest'
    else c :: expandReplacement matched before after rest

/-- Scanner for global replacement of the literal pattern `tok` by `repl`.
`done` is the already-scanned prefix of the original string (needed as the
dollar-backquote context), `rest` the remaining input and `skip` the number
of characters of a just-matched token still to be consumed. -/
def jsRepGo (tok repl : List Char) : List Char → List Char → Nat → List Char
  | _, [], _ => []
  | done, c :: rest, Nat.succ k => jsRepGo tok repl (done ++ [c]) rest k
  | done, c :: rest, 0 =>
    if !tok.isEmpty && startsList tok (c :: rest) then
      expandReplacement tok done ((c :: rest).drop tok.length) repl ++
        jsRepGo tok repl (done ++ [c]) rest (tok.length - 1)
    else c :: jsRepGo tok repl (done ++ [c]) rest 0

/-- Model of `s.replace(tok-as-global-regex, repl)` for a literal pattern. -/
def jsReplace (s tok repl : String) : String :=
  ⟨jsRepGo tok.data repl.data [] s.data 0⟩

/-! ## The template module (`mensagem.js`), copied verbatim -/

/-- The placeholder token of the templates. -/
def tokenJs : String := "\x7b\x7bnome\x7d\x7d"

def mensagemAssunto : String :=
  "Bem-vindo(a) ao DevTogheter"

def mensagemTexto : String :=
  "Olá, \x7b\x7bnome\x7d\x7d! \n\nSeja bem-vindo(a) ao nosso sistema. Estamos felizes em tê-lo(a) conosco.\n\nEsperamos que tenha uma excelente experiência!\n\nAtenciosamente,\nEquipe do Sistema"

def mensagemHtml : String :=
  "\n<!DOCTYPE html>\n<html lang=\"pt-BR\">\n<head>\n    <meta charset=\"UTF-8\">\n    <meta name=\"viewport\" content=\"width=device-width, initial-scale=1.0\">\n    <title>Bem-vindo(a)!</title>\n    <style>\n        body \x7b\n            font-family: 'Arial', sans-serif;\n            line-height: 1.6;\n            color: #333;\n            max-width: 600px;\n            margin: 0 auto;\n            padding: 20px;\n            background-color: #f4f4f4;\n        \x7d\n        .container \x7b\n            background-color: white;\n            padding: 30px;\n            border-radius: 10px;\n            box-shadow: 0 2px 10px rgba(0,0,0,0.1);\n        \x7d\n        .header \x7b\n            text-align: center;\n            border-bottom: 2px solid #58A6FF;\n            padding-bottom: 20px;\n            margin-bottom: 30px;\n        \x7d\n        .header h1 \x7b\n            color: #58A6FF;\n            margin: 0;\n        \x7d\n        .content \x7b\n            font-size: 16px;\n            line-height: 1.8;\n        \x7d\n        .footer \x7b\n            text-align: center;\n            margin-top: 30px;\n            padding-top: 20px;\n            border-top: 1px solid #eee;\n            color: #666;\n            font-size: 14px;\n        \x7d\n        .highlight \x7b\n            color: #58A6FF;\n            font-weight: bold;\n        \x7d\n    </style>\n</head>\n<body>\n    <div class=\"container\">\n        <div class=\"header\">\n            <h1>🎉 Bem-vindo(a) ao DevTogheter!</h1>\n        </div>\n        \n        <div class=\"content\">\n            <p>Olá, <span class=\"highlight\">\x7b\x7bnome\x7d\x7d</span>!</p>\n            \n            <p>Seja bem-vindo(a) a nosso comunidade de programação. Estamos felizes em tê-lo(a) conosco.</p>\n            \n            <p>Esperamos que tenha uma excelente experiência!</p>\n            \n            <p>Atenciosamente,<br>\n            <strong>Equipe DevTogheter</strong></p>\n        </div>\n        \n        <div class=\"footer\">\n            <p>Este é um email automático, por favor não responda.</p>\n            <p>© 2025 DevTogheter</p>\n        </div>\n    </div>\n</body>\n</html>"

def textoSeg0 : String :=
  "Olá, "

def textoSeg1 : String :=
  "! \n\nSeja bem-vindo(a) ao nosso sistema. Estamos felizes em tê-lo(a) conosco.\n\nEsperamos que tenha uma excelente experiência!\n\nAtenciosamente,\nEquipe do Sistema"

def htmlSeg0 : String :=
  "\n<!DOCTYPE html>\n<html lang=\"pt-BR\">\n<head>\n    <meta charset=\"UTF-8\">\n    <meta name=\"viewport\" content=\"width=device-width, initial-scale=1.0\">\n    <title>Bem-vindo(a)!</title>\n    <style>\n        body \x7b\n            font-family: 'Arial', sans-serif;\n            line-height: 1.6;\n            color: #333;\n            max-width: 600px;\n            margin: 0 auto;\n            padding: 20px;\n            background-color: #f4f4f4;\n        \x7d\n        .container \x7b\n            background-color: white;\n            padding: 30px;\n            border-radius: 10px;\n            box-shadow: 0 2px 10px rgba(0,0,0,0.1);\n        \x7d\n        .header \x7b\n            text-align: center;\n            border-bottom: 2px solid #58A6FF;\n            padding-bottom: 20px;\n            margin-bottom: 30px;\n        \x7d\n        .header h1 \x7b\n            color: #58A6FF;\n            margin: 0;\n        \x7d\n        .content \x7b\n            font-size: 16px;\n            line-height: 1.8;\n        \x7d\n        .footer \x7b\n            text-align: center;\n            margin-top: 30px;\n            padding-top: 20px;\n            border-top: 1px solid #eee;\n            color: #666;\n            font-size: 14px;\n        \x7d\n        .highlight \x7b\n            color: #58A6FF;\n            font-weight: bold;\n        \x7d\n    </style>\n</head>\n<body>\n    <div class=\"container\">\n        <div class=\"header\">\n            <h1>🎉 Bem-vindo(a) ao DevTogheter!</h1>\n        </div>\n        \n        <div class=\"content\">\n            <p>Olá, <span class=\"highlight\">"

def htmlSeg1 : String :=
  "</span>!</p>\n            \n            <p>Seja bem-vindo(a) a nosso comunidade de programação. Estamos felizes em tê-lo(a) conosco.</p>\n            \n            <p>Esperamos que tenha uma excelente experiência!</p>\n            \n            <p>Atenciosamente,<br>\n            <strong>Equipe DevTogheter</strong></p>\n        </div>\n        \n        <div class=\"footer\">\n            <p>Este é um email automático, por favor não responda.</p>\n            <p>© 2025 DevTogheter</p>\n        </div>\n    </div>\n</body>\n</html>"


/-! ## The request handler (`server.js` lines 66 to 154) -/

/-- A JSON value as the handler observes a request-body field: absent
(`undefined` after destructuring), a string, or a number. -/
inductive JSValue where
  | undef : JSValue
  | vstr (s : String) : JSValue
  | vnum (n : Int) : JSValue
deriving DecidableEq

/-- JavaScript truthiness of a body field: `undefined`, the empty string
and `0` are falsy. -/
def truthy : JSValue → Bool
  | .undef => false
  | .vstr s => s ≠ ""
  | .vnum n => n ≠ 0

/-- JavaScript `String(v)` coercion as used by `RegExp.prototype.test`. -/
def jsToString : JSValue → String
  | .undef => "undefined"
  | .vstr s => s
  | .vnum n => toString n

/-- Outcome of the external send capability `resend.emails.send`: it
resolved with a data object carrying an id, resolved with an error object,
or the call itself threw. -/
inductive SendOutcome where
  | success (id : String) : SendOutcome
  | failure (errMsg : String) : SendOutcome
  | thrown (errMsg : String) : SendOutcome
deriving DecidableEq

/-- The validation failure reasons of the specification's taxonomy. -/
inductive Reason where
  | missingField : Reason
  | invalidEmailFormat : Reason
  | nameTooShort : Reason
deriving DecidableEq

/-- The three validation checks of `server.js` lines 78 to 100, in source
order, short-circuiting. `none` means all checks passed. A truthy
non-string name reaches the third check, whose `nome.trim()` throws in the
source rather than failing validation; `codeValidate` returns `none` for it
and `postSendWelcome` models the throw. -/
def codeValidate (nome email : JSValue) : Option Reason :=
  if !(truthy nome && truthy email) then some .missingField
  else if !(emailRegexTest (jsToString email)) then some .invalidEmailFormat
  else
    match nome with
    | .vstr s => if utf16Len (jsTrim s) < 2 then some .nameTooShort else none
    | _ => none

/-- The rendered message built at `server.js` lines 109 to 111: the subject
is passed through unchanged, the text and html bodies get the global
replacement of the placeholder token. -/
structure RenderedMessage where
  assunto : String
  texto : String
  html : String
deriving DecidableEq

/-- Rendering with a (caller-trimmed) name value, `server.js` lines 109-111. -/
def renderMessage (name : String) : RenderedMessage :=
  { assunto := mensagemAssunto
    texto := jsReplace mensagemTexto tokenJs name
    html := jsReplace mensagemHtml tokenJs name }

/-- Observable outcome of one `POST /send-welcome` request: the HTTP status
and JSON body fields of the response, whether the send capability was
invoked, and the rendered message if rendering was reached. -/
structure HandlerResult where
  status : Nat
  sucesso : Bool
  mensagem : String
  emailId : Option String
  sendInvoked : Bool
  rendered : Option RenderedMessage
deriving DecidableEq

/-- The `POST /send-welcome` handler of `server.js` lines 66 to 154 as a
function of the two body fields and the behaviour of the send capability.
A non-string truthy `nome` throws a `TypeError` at `nome.trim()` (line 95),
caught by the surrounding `try` and answered with the generic 500. A send
error is re-thrown (line 128) and caught by the same handler. -/
def postSendWelcome (nome email : JSValue) (send : SendOutcome) : HandlerResult :=
  if !(truthy nome && truthy email) then
    { status := 400, sucesso := false, mensagem := "Nome e email são obrigatórios",
      emailId := none, sendInvoked := false, rendered := none }
  else if !(emailRegexTest (jsToString email)) then
    { status := 400, sucesso := false, mensagem := "Formato de email inválido",
      emailId := none, sendInvoked := false, rendered := none }
  else
    match nome with
    | .vstr s =>
      if utf16Len (jsTrim s) < 2 then
        { status := 400, sucesso := false, mensagem := "Nome deve ter pelo menos 2 caracteres",
          emailId := none, sendInvoked := false, rendered := none }
      else
        let rm := renderMessage (jsTrim s)
        match send with
        | .success id =>
          { status := 200, sucesso := true,
            mensagem := "Boas-vindas enviadas para " ++ s ++ "! Verifique seu email.",
            emailId := some id, sendInvoked := true, rendered := some rm }
        | .failure _ =>
          { status := 500, sucesso := false, mensagem := "Erro interno do servidor ao enviar email",
            emailId := none, sendInvoked := true, rendered := some rm }
        | .thrown _ =>
          { status := 500, sucesso := false, mensagem := "Erro interno do servidor ao enviar email",
            emailId := none, sendInvoked := true, rendered := some rm }
    | _ =>
      { status := 500, sucesso := false, mensagem := "Erro interno do servidor ao enviar email",
        emailId := none, sendInvoked := false, rendered := none }


/-! ## Lemmas about prefixes and occurrences -/

theorem startsList_iff (t s : List Char) :
    startsList t s = true ↔ ∃ r, s = t ++ r := by
  induction t generalizing s with
  | nil => simp [startsList]
  | cons a as ih =>
    cases s with
    | nil => simp [startsList]
    | cons b bs =>
      simp only [startsList, Bool.and_eq_true, beq_iff_eq, ih, List.cons_append]
      constructor
      · rintro ⟨rfl, r, rfl⟩
        exact ⟨r, rfl⟩
      · rintro ⟨r, h⟩
        injection h with h1 h2
        exact ⟨h1.symm, r, h2⟩

theorem containsTok_iff (tok s : List Char) :
    containsTok tok s = true ↔ ∃ l r, s = l ++ tok ++ r := by
  induction s with
  | nil =>
    simp only [containsTok, startsList_iff]
    constructor
    · rintro ⟨r, h⟩
      exact ⟨[], r, by simpa using h⟩
    · rintro ⟨l, r, h⟩
      rw [eq_comm] at h
      simp only [List.append_eq_nil, List.append_assoc] at h
      exact ⟨r, by simp [h.1, h.2.1, h.2.2]⟩
  | cons c cs ih =>
    simp only [containsTok, Bool.or_eq_true, startsList_iff, ih]
    constructor
    · rintro (⟨r, h⟩ | ⟨l, r, h⟩)
      · exact ⟨[], r, by simp [h]⟩
      · exact ⟨c :: l, r, by simp [h]⟩
    · rintro ⟨l, r, h⟩
      cases l with
      | nil =>
        exact Or.inl ⟨r, by simpa using h⟩
      | cons a l' =>
        rw [List.cons_append, List.cons_append] at h
        injection h with h1 h2
        exact Or.inr ⟨l', r, by simp [h2]⟩

theorem starts_append (t A B : List Char) (h : startsList t (A ++ B) = true) :
    (∃ r, A = t ++ r) ∨ (∃ t2, t = A ++ t2 ∧ startsList t2 B = true) := by
  induction A generalizing t with
  | nil =>
    exact Or.inr ⟨t, rfl, by simpa using h⟩
  | cons a A' ih =>
    cases t with
    | nil => exact Or.inl ⟨a :: A', rfl⟩
    | cons c t' =>
      rw [List.cons_append, startsList] at h
      rw [Bool.and_eq_true, beq_iff_eq] at h
      obtain ⟨rfl, h2⟩ := h
      rcases ih t' h2 with ⟨r, hr⟩ | ⟨t2, ht, hs⟩
      · exact Or.inl ⟨r, by simp [hr]⟩
      · exact Or.inr ⟨t2, by simp [ht], hs⟩

theorem occurs_append (tok A B : List Char)
    (h : containsTok tok (A ++ B) = true) :
    containsTok tok A = true ∨ containsTok tok B = true ∨
    ∃ t1 t2, tok = t1 ++ t2 ∧ t1 ≠ [] ∧ t2 ≠ [] ∧
      (∃ p, A = p ++ t1) ∧ (∃ q, B = t2 ++ q) := by
  induction A with
  | nil => exact Or.inr (Or.inl (by simpa using h))
  | cons a A' ih =>
    rw [List.cons_append, containsTok, Bool.or_eq_true] at h
    rcases h with h | h
    · rcases starts_append tok (a :: A') B (by simpa using h) with ⟨r, hr⟩ | ⟨t2, ht, hs⟩
      · refine Or.inl ?_
        rw [containsTok_iff]
        exact ⟨[], r, by simp [hr]⟩
      · cases ht2 : t2 with
        | nil =>
          refine Or.inl ?_
          rw [containsTok_iff]
          refine ⟨[], [], ?_⟩
          rw [ht, ht2]
          simp
        | cons x xs =>
          refine Or.inr (Or.inr ⟨a :: A', t2, ht, by simp, by simp [ht2], ⟨[], rfl⟩, ?_⟩)
          rw [startsList_iff] at hs
          exact hs
    · rcases ih h with h1 | h1 | ⟨t1, t2, ht, hne1, hne2, ⟨p, hp⟩, hq⟩
      · refine Or.inl ?_
        rw [containsTok]
        rw [Bool.or_eq_true]
        exact Or.inr h1
      · exact Or.inr (Or.inl h1)
      · exact Or.inr (Or.inr ⟨t1, t2, ht, hne1, hne2, ⟨a :: p, by simp [hp]⟩, hq⟩)

/-! ## Correctness of the derivative matcher -/

theorem RE.nullable_iff (r : RE) : r.nullable = true ↔ RE.Lang r [] := by
  induction r with
  | eps => simp [RE.nullable, RE.Lang]
  | fail => simp [RE.nullable, RE.Lang]
  | cls p => simp [RE.nullable, RE.Lang]
  | many1 p => simp [RE.nullable, RE.Lang]
  | cat r1 r2 ih1 ih2 =>
    simp only [RE.nullable, Bool.and_eq_true, ih1, ih2, RE.Lang]
    constructor
    · rintro ⟨h1, h2⟩
      exact ⟨[], [], rfl, h1, h2⟩
    · rintro ⟨l1, l2, h, h1, h2⟩
      rw [eq_comm, List.append_eq_nil] at h
      exact ⟨h.1 ▸ h1, h.2 ▸ h2⟩
  | alt r1 r2 ih1 ih2 =>
    simp [RE.nullable, RE.Lang, ih1, ih2]

theorem RE.deriv_iff (r : RE) (c : Char) (l : List Char) :
    RE.Lang (r.deriv c) l ↔ RE.Lang r (c :: l) := by
  induction r generalizing l with
  | eps => simp [RE.deriv, RE.Lang]
  | fail => simp [RE.deriv, RE.Lang]
  | cls p =>
    by_cases hp : p c = true
    · simp only [RE.deriv, hp, if_true, RE.Lang]
      constructor
      · rintro rfl
        exact ⟨c, rfl, hp⟩
      · rintro ⟨d, hd, _⟩
        injection hd with h1 h2
    · simp only [RE.deriv, hp, if_false, RE.Lang]
      constructor
      · rintro ⟨⟩
      · rintro ⟨d, hd, hpd⟩
        injection hd with h1 h2
        exact hp (by rw [h1]; exact hpd)
  | many1 p =>
    by_cases hp : p c = true
    · simp only [RE.deriv, hp, if_true, RE.Lang]
      constructor
      · rintro (rfl | ⟨hne, hall⟩)
        · exact ⟨by simp, by simpa using hp⟩
        · refine ⟨by simp, ?_⟩
          intro x hx
          rcases List.mem_cons.mp hx with rfl | hx
          · exact hp
          · exact hall x hx
      · rintro ⟨_, hall⟩
        cases l with
        | nil => exact Or.inl rfl
        | cons d ds =>
          refine Or.inr ⟨by simp, ?_⟩
          intro x hx
          exact hall x (List.mem_cons_of_mem c hx)
    · simp only [RE.deriv, hp, if_false, RE.Lang]
      constructor
      · rintro ⟨⟩
      · rintro ⟨_, hall⟩
        exact absurd (hall c (List.mem_cons_self c l)) hp
  | alt r1 r2 ih1 ih2 =>
    simp only [RE.deriv, RE.Lang, ih1, ih2]
  | cat r1 r2 ih1 ih2 =>
    by_cases hn : r1.nullable = true
    · simp only [RE.deriv, hn, if_true, RE.Lang, ih2]
      constructor
      · rintro (⟨l1, l2, rfl, hd1, h2⟩ | h2)
        · exact ⟨c :: l1, l2, rfl, (ih1 l1).mp hd1, h2⟩
        · exact ⟨[], c :: l, rfl, (RE.nullable_iff r1).mp hn, h2⟩
      · rintro ⟨l1, l2, hsplit, h1, h2⟩
        cases l1 with
        | nil =>
          simp only [List.nil_append] at hsplit
          exact Or.inr (hsplit ▸ h2)
        | cons x l1' =>
          rw [List.cons_append] at hsplit
          injection hsplit with hx hrest
          refine Or.inl ⟨l1', l2, hrest, ?_, h2⟩
          exact (ih1 l1').mpr (hx ▸ h1)
    · simp only [RE.deriv, hn, if_false, RE.Lang]
      constructor
      · rintro ⟨l1, l2, rfl, hd1, h2⟩
        exact ⟨c :: l1, l2, rfl, (ih1 l1).mp hd1, h2⟩
      · rintro ⟨l1, l2, hsplit, h1, h2⟩
        cases l1 with
        | nil =>
          exfalso
          exact hn ((RE.nullable_iff r1).mpr h1)
        | cons x l1' =>
          rw [List.cons_append] at hsplit
          injection hsplit with hx hrest
          exact ⟨l1', l2, hrest, (ih1 l1').mpr (hx ▸ h1), h2⟩

theorem RE.rmatch_iff (r : RE) (l : List Char) :
    r.rmatch l = true ↔ RE.Lang r l := by
  induction l generalizing r with
  | nil => exact RE.nullable_iff r
  | cons c cs ih =>
    have : RE.rmatch r (c :: cs) = RE.rmatch (r.deriv c) cs := rfl
    rw [this, ih, RE.deriv_iff]

theorem lang_email_iff (l : List Char) :
    RE.Lang emailRE l ↔
      ∃ a b c : List Char,
        l = a ++ '@' :: (b ++ '.' :: c) ∧
        a ≠ [] ∧ b ≠ [] ∧ c ≠ [] ∧
        (∀ x ∈ a, isEmailChar x = true) ∧
        (∀ x ∈ b, isEmailChar x = true) ∧
        (∀ x ∈ c, isEmailChar x = true) := by
  simp only [emailRE, RE.Lang]
  constructor
  · rintro ⟨a, x, rfl, ⟨ha, hae⟩, m, y, rfl, ⟨cq, rfl, hcq⟩, b, z, rfl,
      ⟨hb, hbe⟩, d, w, rfl, ⟨dq, rfl, hdq⟩, hw, hwe⟩
    rw [beq_iff_eq] at hcq hdq
    subst hcq
    subst hdq
    exact ⟨a, b, w, by simp, ha, hb, hw, hae, hbe, hwe⟩
  · rintro ⟨a, b, c, rfl, ha, hb, hc, hae, hbe, hce⟩
    refine ⟨a, '@' :: (b ++ '.' :: c), rfl, ⟨ha, hae⟩,
      ['@'], b ++ '.' :: c, rfl, ⟨'@', rfl, by simp⟩,
      b, '.' :: c, rfl, ⟨hb, hbe⟩,
      ['.'], c, rfl, ⟨'.', rfl, by simp⟩, hc, hce⟩

theorem emailRegexTest_iff (s : String) :
    emailRegexTest s = true ↔ emailShapeSpec s := by
  rw [emailRegexTest, RE.rmatch_iff, lang_email_iff]
  rfl

/-! ## Characterization of the global replacement -/

theorem expandReplacement_dollarFree (matched before after : List Char) :
    ∀ repl, repl.contains '$' = false →
      expandReplacement matched before after repl = repl := by
  intro repl
  induction repl with
  | nil => intro _; rfl
  | cons c rest ih =>
    intro h
    rw [List.contains_cons, Bool.or_eq_false_iff] at h
    obtain ⟨hc, hrest⟩ := h
    rw [beq_eq_false_iff_ne] at hc
    have hc' : ¬ c = '$' := Ne.symm hc
    rw [expandReplacement.eq_def]
    simp only [if_neg hc', ih hrest]

/-! ## Occurrence analysis at junctions

To show that a rendered part contains no placeholder token, occurrences
crossing a boundary between a template segment and the inserted name are
ruled out by decidable side conditions on the concrete segments. -/

/-- No nonempty proper suffix of `tok` is a prefix of `b`. -/
def noMidPre (tok b : List Char) : Bool :=
  (List.range tok.length).all fun i => i == 0 || !startsList (tok.drop i) b

/-- No nonempty proper prefix of `tok` is a suffix of `a`. -/
def noMidSuf (tok a : List Char) : Bool :=
  (List.range tok.length).all fun i => i == 0 || !endsList (tok.take i) a

theorem noMidPre_spec (tok b : List Char) (h : noMidPre tok b = true)
    (t1 t2 : List Char) (ht : tok = t1 ++ t2) (h1 : t1 ≠ []) (h2 : t2 ≠ [])
    (q : List Char) (hb : b = t2 ++ q) : False := by
  have hi1 : 0 < t1.length := List.length_pos.mpr h1
  have hlt : t1.length < tok.length := by
    rw [ht, List.length_append]
    have : 0 < t2.length := List.length_pos.mpr h2
    omega
  have hmem : t1.length ∈ List.range tok.length := List.mem_range.mpr hlt
  have hall := (List.all_eq_true.mp h) _ hmem
  rw [Bool.or_eq_true] at hall
  rcases hall with h0 | hns
  · rw [Nat.beq_eq_true_eq] at h0
    omega
  · have hdrop : tok.drop t1.length = t2 := by rw [ht, List.drop_left]
    rw [hdrop] at hns
    have hs : startsList t2 b = true := (startsList_iff t2 b).mpr ⟨q, hb⟩
    rw [hs] at hns
    cases hns

theorem noMidSuf_spec (tok a : List Char) (h : noMidSuf tok a = true)
    (t1 t2 : List Char) (ht : tok = t1 ++ t2) (h1 : t1 ≠ []) (h2 : t2 ≠ [])
    (p : List Char) (ha : a = p ++ t1) : False := by
  have hi1 : 0 < t1.length := List.length_pos.mpr h1
  have hlt : t1.length < tok.length := by
    rw [ht, List.length_append]
    have : 0 < t2.length := List.length_pos.mpr h2
    omega
  have hmem : t1.length ∈ List.range tok.length := List.mem_range.mpr hlt
  have hall := (List.all_eq_true.mp h) _ hmem
  rw [Bool.or_eq_true] at hall
  rcases hall with h0 | hns
  · rw [Nat.beq_eq_true_eq] at h0
    omega
  · have htake : tok.take t1.length = t1 := by rw [ht, List.take_left]
    rw [htake] at hns
    have hs : endsList t1 a = true := by
      rw [endsList, startsList_iff]
      exact ⟨p.reverse, by rw [ha, List.reverse_append]⟩
    rw [hs] at hns
    cases hns

/-- An occurrence-free replacement placed between occurrence-free segments
whose junctions cannot complete a token yields an occurrence-free result. -/
theorem no_token_between (tok t0 t1 n : List Char)
    (h0 : containsTok tok t0 = false) (h1 : containsTok tok t1 = false)
    (hn : containsTok tok n = false)
    (hL : noMidSuf tok t0 = true) (hR : noMidPre tok t1 = true) :
    containsTok tok (t0 ++ (n ++ t1)) = false := by
  by_contra hcon
  rw [Bool.not_eq_false] at hcon
  rcases occurs_append tok t0 (n ++ t1) hcon with
    hA | hB | ⟨u1, u2, ht, hne1, hne2, ⟨p, hp⟩, ⟨q, hq⟩⟩
  · rw [hA] at h0; cases h0
  · rcases occurs_append tok n t1 hB with
      hN | hT | ⟨v1, v2, ht2, hne12, hne22, _, ⟨q2, hq2⟩⟩
    · rw [hN] at hn; cases hn
    · rw [hT] at h1; cases h1
    · exact noMidPre_spec tok t1 hR v1 v2 ht2 hne12 hne22 q2 hq2
  · exact noMidSuf_spec tok t0 hL u1 u2 ht hne1 hne2 p hp


/-! ## Stepping lemmas for the replacement scanner -/

/-- Scanning condition: while consuming `A` (with `B` still to come), the
scanner never sees the token start. -/
def noHitsIn (tok : List Char) : List Char → List Char → Bool
  | [], _ => true
  | a :: A, B => !startsList tok (a :: (A ++ B)) && noHitsIn tok A B

theorem jsRepGo_skip (tok repl : List Char) :
    ∀ A B done, jsRepGo tok repl done (A ++ B) A.length =
      jsRepGo tok repl (done ++ A) B 0 := by
  intro A
  induction A with
  | nil => intro B done; simp
  | cons a A ih =>
    intro B done
    rw [List.cons_append, List.length_cons]
    have h1 : jsRepGo tok repl done (a :: (A ++ B)) (A.length + 1) =
        jsRepGo tok repl (done ++ [a]) (A ++ B) A.length := rfl
    rw [h1, ih B (done ++ [a])]
    simp

theorem jsRepGo_noocc (tok repl : List Char) :
    ∀ s done, containsTok tok s = false → jsRepGo tok repl done s 0 = s := by
  intro s
  induction s with
  | nil => intro done _; rfl
  | cons c rest ih =>
    intro done h
    rw [containsTok, Bool.or_eq_false_iff] at h
    have hcond : (!tok.isEmpty && startsList tok (c :: rest)) = false := by
      rw [h.1, Bool.and_false]
    rw [jsRepGo, if_neg (by simp [hcond])]
    rw [ih (done ++ [c]) h.2]

theorem jsRepGo_match (tok repl B done : List Char) (htok : tok ≠ []) :
    jsRepGo tok repl done (tok ++ B) 0 =
      expandReplacement tok done B repl ++ jsRepGo tok repl (done ++ tok) B 0 := by
  cases tok with
  | nil => exact absurd rfl htok
  | cons t ts =>
    have hstart : startsList (t :: ts) (t :: ts ++ B) = true :=
      (startsList_iff _ _).mpr ⟨B, rfl⟩
    have hcond : (!(t :: ts).isEmpty && startsList (t :: ts) (t :: (ts ++ B))) = true := by
      rw [List.isEmpty_cons]
      simpa using hstart
    rw [List.cons_append, jsRepGo, if_pos hcond]
    have hdrop : (t :: (ts ++ B)).drop (t :: ts).length = B := by
      rw [List.length_cons, List.drop_succ_cons, List.drop_left]
    have hlen : (t :: ts).length - 1 = ts.length := by simp
    rw [hdrop, hlen, jsRepGo_skip (t :: ts) repl ts B (done ++ [t])]
    simp

theorem jsRepGo_prepend (tok repl : List Char) :
    ∀ A B done, noHitsIn tok A B = true →
      jsRepGo tok repl done (A ++ B) 0 = A ++ jsRepGo tok repl (done ++ A) B 0 := by
  intro A
  induction A with
  | nil => intro B done _; simp
  | cons a A ih =>
    intro B done h
    rw [noHitsIn, Bool.and_eq_true] at h
    have hstart : startsList tok (a :: (A ++ B)) = false := by
      have h1 := h.1
      rwa [Bool.not_eq_eq_eq_not, Bool.not_true] at h1
    rw [List.cons_append, jsRepGo, if_neg (by simp [hstart])]
    rw [ih B (done ++ [a]) h.2]
    simp

/-! ## Decomposition of the rendered message

The two template bodies each contain exactly one occurrence of the
placeholder token; the stepping lemmas turn the scanner run on them into
an explicit segment decomposition, for an arbitrary replacement string. -/

theorem tokenJs_ne_nil : tokenJs.data ≠ [] := by decide

set_option maxRecDepth 8000 in
theorem texto_decomp :
    mensagemTexto.data = textoSeg0.data ++ (tokenJs.data ++ textoSeg1.data) := rfl

set_option maxRecDepth 100000 in
theorem html_decomp :
    mensagemHtml.data = htmlSeg0.data ++ (tokenJs.data ++ htmlSeg1.data) := rfl

theorem containsTok_textoSeg0 : containsTok tokenJs.data textoSeg0.data = false := by
  decide

set_option maxRecDepth 8000 in
theorem containsTok_textoSeg1 : containsTok tokenJs.data textoSeg1.data = false := by
  decide

set_option maxRecDepth 100000 in
theorem containsTok_htmlSeg0 : containsTok tokenJs.data htmlSeg0.data = false := by
  decide

set_option maxRecDepth 100000 in
theorem containsTok_htmlSeg1 : containsTok tokenJs.data htmlSeg1.data = false := by
  decide

theorem containsTok_assunto : containsTok tokenJs.data mensagemAssunto.data = false := by
  decide

theorem noHits_texto :
    noHitsIn tokenJs.data textoSeg0.data (tokenJs.data ++ textoSeg1.data) = true := by
  decide

set_option maxRecDepth 100000 in
theorem noHits_html :
    noHitsIn tokenJs.data htmlSeg0.data (tokenJs.data ++ htmlSeg1.data) = true := by
  decide

set_option maxRecDepth 8000 in
theorem noMidSuf_textoSeg0 : noMidSuf tokenJs.data textoSeg0.data = true := by decide

set_option maxRecDepth 8000 in
theorem noMidPre_textoSeg1 : noMidPre tokenJs.data textoSeg1.data = true := by decide

set_option maxRecDepth 100000 in
theorem noMidSuf_htmlSeg0 : noMidSuf tokenJs.data htmlSeg0.data = true := by decide

set_option maxRecDepth 100000 in
theorem noMidPre_htmlSeg1 : noMidPre tokenJs.data htmlSeg1.data = true := by decide

theorem renderMessage_texto (n : String) :
    (renderMessage n).texto.data =
      textoSeg0.data ++
        (expandReplacement tokenJs.data textoSeg0.data textoSeg1.data n.data ++
          textoSeg1.data) := by
  have h0 : (renderMessage n).texto.data =
      jsRepGo tokenJs.data n.data [] mensagemTexto.data 0 := rfl
  rw [h0, texto_decomp,
    jsRepGo_prepend tokenJs.data n.data textoSeg0.data
      (tokenJs.data ++ textoSeg1.data) [] noHits_texto,
    List.nil_append,
    jsRepGo_match tokenJs.data n.data textoSeg1.data textoSeg0.data tokenJs_ne_nil,
    jsRepGo_noocc tokenJs.data n.data textoSeg1.data _ containsTok_textoSeg1]

theorem renderMessage_html (n : String) :
    (renderMessage n).html.data =
      htmlSeg0.data ++
        (expandReplacement tokenJs.data htmlSeg0.data htmlSeg1.data n.data ++
          htmlSeg1.data) := by
  have h0 : (renderMessage n).html.data =
      jsRepGo tokenJs.data n.data [] mensagemHtml.data 0 := rfl
  rw [h0, html_decomp,
    jsRepGo_prepend tokenJs.data n.data htmlSeg0.data
      (tokenJs.data ++ htmlSeg1.data) [] noHits_html,
    List.nil_append,
    jsRepGo_match tokenJs.data n.data htmlSeg1.data htmlSeg0.data tokenJs_ne_nil,
    jsRepGo_noocc tokenJs.data n.data htmlSeg1.data _ containsTok_htmlSeg1]

theorem renderMessage_texto_name (n : String) (hd : n.data.contains '$' = false) :
    (renderMessage n).texto.data = textoSeg0.data ++ (n.data ++ textoSeg1.data) := by
  rw [renderMessage_texto n, expandReplacement_dollarFree _ _ _ _ hd]

theorem renderMessage_html_name (n : String) (hd : n.data.contains '$' = false) :
    (renderMessage n).html.data = htmlSeg0.data ++ (n.data ++ htmlSeg1.data) := by
  rw [renderMessage_html n, expandReplacement_dollarFree _ _ _ _ hd]

/-- A replacement string consisting of the single pattern dollar-ampersand
expands to the matched text itself. -/
theorem expand_dollarAmp (matched before after : List Char) :
    expandReplacement matched before after ('$' :: '&' :: []) = matched := by
  rw [expandReplacement.eq_def]
  simp [expandReplacement]

/-! ## Reduction lemmas for the handler -/

theorem string_data_append (a b : String) : (a ++ b).data = a.data ++ b.data := rfl

/-- The success message starts with the letter B, so it differs from every
string that does not. -/
theorem success_msg_ne (s other : String) (hother : other.data.head? ≠ some 'B') :
    ("Boas-vindas enviadas para " ++ s ++ "! Verifique seu email." : String) ≠ other := by
  intro h
  apply hother
  rw [← h]
  rfl

theorem truthy_vstr_false_iff (s : String) : truthy (JSValue.vstr s) = false ↔ s = "" := by
  simp [truthy]

/-- For string fields, passing the whole validation is equivalent to the
conjunction of the three rule conditions. -/
theorem codeValidate_none_iff (s e : String) :
    codeValidate (JSValue.vstr s) (JSValue.vstr e) = none ↔
      s ≠ "" ∧ e ≠ "" ∧ emailRegexTest e = true ∧ 2 ≤ utf16Len (jsTrim s) := by
  by_cases hs : s = ""
  · subst hs
    simp [codeValidate, truthy]
  · by_cases hemp : e = ""
    · subst hemp
      simp [codeValidate, truthy, hs]
    · have hcond : (!(truthy (JSValue.vstr s) && truthy (JSValue.vstr e))) = false := by
        simp [truthy, hs, hemp]
      have h0 : codeValidate (JSValue.vstr s) (JSValue.vstr e) =
          (if !(emailRegexTest e) then some Reason.invalidEmailFormat
           else if utf16Len (jsTrim s) < 2 then some Reason.nameTooShort
           else none) := by
        rw [codeValidate.eq_def]
        rw [if_neg (by simp [hcond])]
        rfl
      rw [h0]
      by_cases ht : emailRegexTest e = true
      · rw [if_neg (by simp [ht])]
        by_cases hlt : utf16Len (jsTrim s) < 2
        · rw [if_pos hlt]
          simp [hs, hemp, ht, Nat.not_le.mpr hlt]
        · rw [if_neg hlt]
          simp [hs, hemp, ht, Nat.not_lt.mp hlt]
      · have ht2 : emailRegexTest e = false := by
          cases hval : emailRegexTest e
          · rfl
          · exact absurd hval ht
        rw [if_pos (by simp [ht2])]
        simp [ht]

/-- On inputs that pass the first two checks, the handler reduces to the
name-length check followed by the send-outcome dispatch. -/
theorem postSendWelcome_vstr (s e : String) (send : SendOutcome)
    (hs : s ≠ "") (he : e ≠ "") (ht : emailRegexTest e = true) :
    postSendWelcome (JSValue.vstr s) (JSValue.vstr e) send =
      if utf16Len (jsTrim s) < 2 then
        { status := 400, sucesso := false,
          mensagem := "Nome deve ter pelo menos 2 caracteres",
          emailId := none, sendInvoked := false, rendered := none }
      else
        match send with
        | .success id =>
          { status := 200, sucesso := true,
            mensagem := "Boas-vindas enviadas para " ++ s ++ "! Verifique seu email.",
            emailId := some id, sendInvoked := true,
            rendered := some (renderMessage (jsTrim s)) }
        | .failure _ =>
          { status := 500, sucesso := false,
            mensagem := "Erro interno do servidor ao enviar email",
            emailId := none, sendInvoked := true,
            rendered := some (renderMessage (jsTrim s)) }
        | .thrown _ =>
          { status := 500, sucesso := false,
            mensagem := "Erro interno do servidor ao enviar email",
            emailId := none, sendInvoked := true,
            rendered := some (renderMessage (jsTrim s)) } := by
  have hcond : (!(truthy (JSValue.vstr s) && truthy (JSValue.vstr e))) = false := by
    simp [truthy, hs, he]
  rw [postSendWelcome.eq_def]
  rw [if_neg (by simp [hcond])]
  rw [if_neg (by simp [jsToString, ht])]

/-- On inputs whose name field is a string that passes the first two checks,
the handler reduces to the name-length check and the send dispatch; the
email field may be any truthy value whose string coercion passes the regex. -/
theorem postSendWelcome_pass2 (s : String) (email : JSValue) (send : SendOutcome)
    (hs : s ≠ "") (he : truthy email = true)
    (ht : emailRegexTest (jsToString email) = true) :
    postSendWelcome (JSValue.vstr s) email send =
      if utf16Len (jsTrim s) < 2 then
        { status := 400, sucesso := false,
          mensagem := "Nome deve ter pelo menos 2 caracteres",
          emailId := none, sendInvoked := false, rendered := none }
      else
        match send with
        | .success id =>
          { status := 200, sucesso := true,
            mensagem := "Boas-vindas enviadas para " ++ s ++ "! Verifique seu email.",
            emailId := some id, sendInvoked := true,
            rendered := some (renderMessage (jsTrim s)) }
        | .failure _ =>
          { status := 500, sucesso := false,
            mensagem := "Erro interno do servidor ao enviar email",
            emailId := none, sendInvoked := true,
            rendered := some (renderMessage (jsTrim s)) }
        | .thrown _ =>
          { status := 500, sucesso := false,
            mensagem := "Erro interno do servidor ao enviar email",
            emailId := none, sendInvoked := true,
            rendered := some (renderMessage (jsTrim s)) } := by
  rw [postSendWelcome.eq_def]
  rw [if_neg (by rw [he]; simp [truthy, hs])]
  rw [if_neg (by simp [ht])]

/-- A truthy numeric name field reaches `nome.trim()`, which throws; the
handler answers with the generic 500 without invoking the send capability. -/
theorem postSendWelcome_vnum (n : Int) (email : JSValue) (send : SendOutcome)
    (hn : n ≠ 0) (he : truthy email = true)
    (ht : emailRegexTest (jsToString email) = true) :
    postSendWelcome (JSValue.vnum n) email send =
      { status := 500, sucesso := false,
        mensagem := "Erro interno do servidor ao enviar email",
        emailId := none, sendInvoked := false, rendered := none } := by
  rw [postSendWelcome.eq_def]
  rw [if_neg (by rw [he]; simp [truthy, hn])]
  rw [if_neg (by simp [ht])]

/-! ## The claims -/

/-- C1, counterexample: the name `" "` is a string that is empty after
whitespace trimming, yet the response carries the name-too-short message,
not the missing-fields message: the presence check of `server.js` line 78
tests JavaScript truthiness without trimming, and `" "` is truthy. -/
theorem c1_counterexample :
    jsTrim " " = "" ∧
    (postSendWelcome (JSValue.vstr " ") (JSValue.vstr "a@b.co")
        (SendOutcome.success "id")).mensagem = "Nome deve ter pelo menos 2 caracteres" ∧
    (postSendWelcome (JSValue.vstr " ") (JSValue.vstr "a@b.co")
        (SendOutcome.success "id")).mensagem ≠ "Nome e email são obrigatórios" := by
  refine ⟨by decide, by decide, by decide⟩

/-- C1, amended: for every request in which the name field or the email
field is absent or is exactly the empty string, the response has status 400
with the missing-fields message and the send capability is not invoked
(whitespace-only strings pass the presence check and fall through to the
later rules). -/
theorem c1_missing_fields (nome email : JSValue) (send : SendOutcome)
    (h : nome = JSValue.undef ∨ nome = JSValue.vstr "" ∨
         email = JSValue.undef ∨ email = JSValue.vstr "") :
    (postSendWelcome nome email send).status = 400 ∧
    (postSendWelcome nome email send).sucesso = false ∧
    (postSendWelcome nome email send).mensagem = "Nome e email são obrigatórios" ∧
    (postSendWelcome nome email send).sendInvoked = false ∧
    (postSendWelcome nome email send).rendered = none := by
  have hcond : (!(truthy nome && truthy email)) = true := by
    rcases h with rfl | rfl | rfl | rfl
    · rfl
    · simp [truthy]
    · simp [truthy]
    · simp [truthy]
  rw [postSendWelcome.eq_def, if_pos hcond]
  exact ⟨rfl, rfl, rfl, rfl, rfl⟩

theorem c1_missing_fields_witness :
    (postSendWelcome JSValue.undef (JSValue.vstr "a@b.co")
        (SendOutcome.success "id")).status = 400 ∧
    (postSendWelcome JSValue.undef (JSValue.vstr "a@b.co")
        (SendOutcome.success "id")).mensagem = "Nome e email são obrigatórios" ∧
    (postSendWelcome JSValue.undef (JSValue.vstr "a@b.co")
        (SendOutcome.success "id")).sendInvoked = false :=
  have h := c1_missing_fields JSValue.undef (JSValue.vstr "a@b.co")
    (SendOutcome.success "id") (Or.inl rfl)
  ⟨h.1, h.2.2.1, h.2.2.2.1⟩

/-- C2: the three validation checks are applied in the order missing-fields,
email-format, name-length, short-circuiting: whenever at least one rule is
violated, the response is a 400 carrying exactly the message of the first
violated rule in that order, and the three messages are pairwise distinct. -/
theorem c2_rule_order (nome email : String) (send : SendOutcome)
    (h : nome = "" ∨ email = "" ∨ emailRegexTest email = false ∨
         utf16Len (jsTrim nome) < 2) :
    (postSendWelcome (JSValue.vstr nome) (JSValue.vstr email) send).status = 400 ∧
    (postSendWelcome (JSValue.vstr nome) (JSValue.vstr email) send).sucesso = false ∧
    (postSendWelcome (JSValue.vstr nome) (JSValue.vstr email) send).mensagem =
      (if nome = "" ∨ email = "" then "Nome e email são obrigatórios"
       else if emailRegexTest email = false then "Formato de email inválido"
       else "Nome deve ter pelo menos 2 caracteres") ∧
    ("Nome e email são obrigatórios" : String) ≠ "Formato de email inválido" ∧
    ("Nome e email são obrigatórios" : String) ≠ "Nome deve ter pelo menos 2 caracteres" ∧
    ("Formato de email inválido" : String) ≠ "Nome deve ter pelo menos 2 caracteres" := by
  by_cases hp : nome = "" ∨ email = ""
  · have hcond : (!(truthy (JSValue.vstr nome) && truthy (JSValue.vstr email))) = true := by
      rcases hp with rfl | rfl
      · simp [truthy]
      · simp [truthy]
    rw [postSendWelcome.eq_def, if_pos hcond, if_pos hp]
    exact ⟨rfl, rfl, rfl, by decide, by decide, by decide⟩
  · push_neg at hp
    obtain ⟨hs, he⟩ := hp
    have hcond : (!(truthy (JSValue.vstr nome) && truthy (JSValue.vstr email))) = false := by
      simp [truthy, hs, he]
    by_cases hf : emailRegexTest email = false
    · rw [postSendWelcome.eq_def, if_neg (by simp [hcond]),
        if_pos (by simp [jsToString, hf]), if_neg (not_or.mpr ⟨hs, he⟩), if_pos hf]
      exact ⟨rfl, rfl, rfl, by decide, by decide, by decide⟩
    · have hform : emailRegexTest email = true := by
        cases hval : emailRegexTest email
        · exact absurd hval hf
        · rfl
      have hlt : utf16Len (jsTrim nome) < 2 := by
        rcases h with h | h | h | h
        · exact absurd h hs
        · exact absurd h he
        · exact absurd h hf
        · exact h
      rw [postSendWelcome_vstr nome email send hs he hform, if_pos hlt,
        if_neg (not_or.mpr ⟨hs, he⟩), if_neg hf]
      exact ⟨rfl, rfl, rfl, by decide, by decide, by decide⟩

theorem c2_rule_order_witness :
    emailRegexTest "" = false ∧
    utf16Len (jsTrim "") < 2 ∧
    (postSendWelcome (JSValue.vstr "") (JSValue.vstr "")
        (SendOutcome.success "id")).status = 400 ∧
    (postSendWelcome (JSValue.vstr "") (JSValue.vstr "")
        (SendOutcome.success "id")).mensagem = "Nome e email são obrigatórios" := by
  have h := c2_rule_order "" "" (SendOutcome.success "id") (Or.inl rfl)
  refine ⟨by decide, by decide, h.1, ?_⟩
  rw [h.2.2.1]
  simp

/-- C3: for inputs that pass the presence check, the email is rejected with
status 400 and the invalid-format message exactly when it fails the shape
"one or more non-whitespace non-at characters, at sign, one or more such
characters, dot, one or more such characters" stated by the specification. -/
theorem c3_email_format (nome email : String) (send : SendOutcome)
    (h1 : nome ≠ "") (h2 : email ≠ "") :
    ((postSendWelcome (JSValue.vstr nome) (JSValue.vstr email) send).status = 400 ∧
     (postSendWelcome (JSValue.vstr nome) (JSValue.vstr email) send).mensagem =
       "Formato de email inválido")
      ↔ ¬ emailShapeSpec email := by
  by_cases ht : emailRegexTest email = true
  · apply iff_of_false
    · rw [postSendWelcome_vstr nome email send h1 h2 ht]
      intro hc
      by_cases hlt : utf16Len (jsTrim nome) < 2
      · rw [if_pos hlt] at hc
        exact absurd hc.2 (by decide)
      · rw [if_neg hlt] at hc
        cases send with
        | success id => exact success_msg_ne nome _ (by decide) hc.2
        | failure m =>
          exact absurd hc.2 (show ¬ ("Erro interno do servidor ao enviar email" : String) =
            "Formato de email inválido" by decide)
        | thrown m =>
          exact absurd hc.2 (show ¬ ("Erro interno do servidor ao enviar email" : String) =
            "Formato de email inválido" by decide)
    · exact not_not_intro ((emailRegexTest_iff email).mp ht)
  · have hf : emailRegexTest email = false := by
      cases hval : emailRegexTest email
      · rfl
      · exact absurd hval ht
    apply iff_of_true
    · have hcond : (!(truthy (JSValue.vstr nome) && truthy (JSValue.vstr email))) = false := by
        simp [truthy, h1, h2]
      rw [postSendWelcome.eq_def, if_neg (by simp [hcond]),
        if_pos (by simp [jsToString, hf])]
      exact ⟨rfl, rfl⟩
    · intro hshape
      exact ht ((emailRegexTest_iff email).mpr hshape)

theorem c3_email_format_witness :
    emailShapeSpec "a@b.co" ∧
    ¬ emailShapeSpec "foo@bar" ∧
    (postSendWelcome (JSValue.vstr "Al") (JSValue.vstr "foo@bar")
        (SendOutcome.success "id")).status = 400 ∧
    (postSendWelcome (JSValue.vstr "Al") (JSValue.vstr "foo@bar")
        (SendOutcome.success "id")).mensagem = "Formato de email inválido" ∧
    ¬ ((postSendWelcome (JSValue.vstr "Al") (JSValue.vstr "a@b.co")
        (SendOutcome.success "id")).status = 400 ∧
       (postSendWelcome (JSValue.vstr "Al") (JSValue.vstr "a@b.co")
        (SendOutcome.success "id")).mensagem = "Formato de email inválido") := by
  have hshape : emailShapeSpec "a@b.co" := (emailRegexTest_iff "a@b.co").mp (by decide)
  have hnshape : ¬ emailShapeSpec "foo@bar" := by
    intro h
    have hx := (emailRegexTest_iff "foo@bar").mpr h
    rw [show emailRegexTest "foo@bar" = false from by decide] at hx
    cases hx
  have hbad := (c3_email_format "Al" "foo@bar" (SendOutcome.success "id")
      (by decide) (by decide)).mpr hnshape
  have hgood : ¬ ((postSendWelcome (JSValue.vstr "Al") (JSValue.vstr "a@b.co")
        (SendOutcome.success "id")).status = 400 ∧
      (postSendWelcome (JSValue.vstr "Al") (JSValue.vstr "a@b.co")
        (SendOutcome.success "id")).mensagem = "Formato de email inválido") := by
    rw [c3_email_format "Al" "a@b.co" (SendOutcome.success "id") (by decide) (by decide)]
    exact not_not_intro hshape
  exact ⟨hshape, hnshape, hbad.1, hbad.2, hgood⟩

/-- C4: for inputs that pass the presence and email-format checks, the
response is a 400 with the name-too-short message exactly when the
whitespace-trimmed name has length (in UTF-16 code units, the JavaScript
`length`) strictly less than 2. -/
theorem c4_name_length (nome email : String) (send : SendOutcome)
    (h1 : nome ≠ "") (h2 : email ≠ "") (h3 : emailRegexTest email = true) :
    ((postSendWelcome (JSValue.vstr nome) (JSValue.vstr email) send).status = 400 ∧
     (postSendWelcome (JSValue.vstr nome) (JSValue.vstr email) send).mensagem =
       "Nome deve ter pelo menos 2 caracteres")
      ↔ utf16Len (jsTrim nome) < 2 := by
  rw [postSendWelcome_vstr nome email send h1 h2 h3]
  by_cases hlt : utf16Len (jsTrim nome) < 2
  · rw [if_pos hlt]
    exact iff_of_true ⟨rfl, rfl⟩ hlt
  · rw [if_neg hlt]
    apply iff_of_false _ hlt
    intro hc
    cases send with
    | success id => exact success_msg_ne nome _ (by decide) hc.2
    | failure m =>
      exact absurd hc.2 (show ¬ ("Erro interno do servidor ao enviar email" : String) =
        "Nome deve ter pelo menos 2 caracteres" by decide)
    | thrown m =>
      exact absurd hc.2 (show ¬ ("Erro interno do servidor ao enviar email" : String) =
        "Nome deve ter pelo menos 2 caracteres" by decide)

theorem c4_name_length_witness :
    jsTrim " a " = "a" ∧
    utf16Len (jsTrim " a ") < 2 ∧
    2 ≤ utf16Len (jsTrim "Al") ∧
    (postSendWelcome (JSValue.vstr " a ") (JSValue.vstr "a@b.co")
        (SendOutcome.success "id")).status = 400 ∧
    (postSendWelcome (JSValue.vstr " a ") (JSValue.vstr "a@b.co")
        (SendOutcome.success "id")).mensagem = "Nome deve ter pelo menos 2 caracteres" ∧
    ¬ ((postSendWelcome (JSValue.vstr "Al") (JSValue.vstr "a@b.co")
          (SendOutcome.success "id")).status = 400 ∧
       (postSendWelcome (JSValue.vstr "Al") (JSValue.vstr "a@b.co")
          (SendOutcome.success "id")).mensagem = "Nome deve ter pelo menos 2 caracteres") := by
  have ha := (c4_name_length " a " "a@b.co" (SendOutcome.success "id")
      (by decide) (by decide) (by decide)).mpr (by decide)
  have hb : ¬ ((postSendWelcome (JSValue.vstr "Al") (JSValue.vstr "a@b.co")
        (SendOutcome.success "id")).status = 400 ∧
      (postSendWelcome (JSValue.vstr "Al") (JSValue.vstr "a@b.co")
        (SendOutcome.success "id")).mensagem = "Nome deve ter pelo menos 2 caracteres") := by
    rw [c4_name_length "Al" "a@b.co" (SendOutcome.success "id")
      (by decide) (by decide) (by decide)]
    decide
  exact ⟨by decide, by decide, by decide, ha.1, ha.2, hb⟩

/-- C7: whenever validation fails with any of the three reasons, the
handler answers 400 without invoking the send capability and without
rendering. -/
theorem c7_no_send_on_invalid (nome email : JSValue) (send : SendOutcome) (r : Reason)
    (h : codeValidate nome email = some r) :
    (postSendWelcome nome email send).status = 400 ∧
    (postSendWelcome nome email send).sucesso = false ∧
    (postSendWelcome nome email send).sendInvoked = false ∧
    (postSendWelcome nome email send).rendered = none := by
  rw [codeValidate.eq_def] at h
  by_cases h1 : (!(truthy nome && truthy email)) = true
  · rw [postSendWelcome.eq_def, if_pos h1]
    exact ⟨rfl, rfl, rfl, rfl⟩
  · rw [if_neg h1] at h
    have htr : truthy nome = true ∧ truthy email = true := by
      cases ha : truthy nome <;> cases hb : truthy email <;>
        simp [ha, hb] at h1 ⊢
    by_cases h2 : (!(emailRegexTest (jsToString email))) = true
    · rw [postSendWelcome.eq_def, if_neg h1, if_pos h2]
      exact ⟨rfl, rfl, rfl, rfl⟩
    · rw [if_neg h2] at h
      have ht : emailRegexTest (jsToString email) = true := by
        cases hval : emailRegexTest (jsToString email)
        · rw [hval] at h2
          exact absurd rfl h2
        · rfl
      cases nome with
      | undef => simp [truthy] at htr
      | vnum n => simp at h
      | vstr s =>
        have hs : s ≠ "" := by
          intro hempty
          subst hempty
          simp [truthy] at htr
        by_cases h3 : utf16Len (jsTrim s) < 2
        · rw [postSendWelcome_pass2 s email send hs htr.2 ht, if_pos h3]
          exact ⟨rfl, rfl, rfl, rfl⟩
        · simp only [if_neg h3] at h
          simp at h

theorem c7_no_send_on_invalid_witness :
    codeValidate (JSValue.vstr "A") (JSValue.vstr "ana@example.com") =
      some Reason.nameTooShort ∧
    (postSendWelcome (JSValue.vstr "A") (JSValue.vstr "ana@example.com")
        (SendOutcome.success "id")).status = 400 ∧
    (postSendWelcome (JSValue.vstr "A") (JSValue.vstr "ana@example.com")
        (SendOutcome.success "id")).sendInvoked = false ∧
    (postSendWelcome (JSValue.vstr "A") (JSValue.vstr "ana@example.com")
        (SendOutcome.success "id")).rendered = none := by
  have h := c7_no_send_on_invalid (JSValue.vstr "A") (JSValue.vstr "ana@example.com")
    (SendOutcome.success "id") Reason.nameTooShort (by decide)
  exact ⟨by decide, h.1, h.2.2.1, h.2.2.2⟩

/-- C8: for every validated request whose send capability resolves with an
error or throws, the response is status 500 with sucesso false and the
fixed generic message, independent of the provider's error text, and
without a provider message id. -/
theorem c8_provider_failure (s e m : String) (send : SendOutcome)
    (hv : codeValidate (JSValue.vstr s) (JSValue.vstr e) = none)
    (hsend : send = SendOutcome.failure m ∨ send = SendOutcome.thrown m) :
    (postSendWelcome (JSValue.vstr s) (JSValue.vstr e) send).status = 500 ∧
    (postSendWelcome (JSValue.vstr s) (JSValue.vstr e) send).sucesso = false ∧
    (postSendWelcome (JSValue.vstr s) (JSValue.vstr e) send).mensagem =
      "Erro interno do servidor ao enviar email" ∧
    (postSendWelcome (JSValue.vstr s) (JSValue.vstr e) send).emailId = none ∧
    (postSendWelcome (JSValue.vstr s) (JSValue.vstr e) send).sendInvoked = true := by
  obtain ⟨hs, he, ht, hlen⟩ := (codeValidate_none_iff s e).mp hv
  rw [postSendWelcome_vstr s e send hs he ht, if_neg (Nat.not_lt.mpr hlen)]
  rcases hsend with rfl | rfl
  · exact ⟨rfl, rfl, rfl, rfl, rfl⟩
  · exact ⟨rfl, rfl, rfl, rfl, rfl⟩

theorem c8_provider_failure_witness :
    codeValidate (JSValue.vstr "Ana") (JSValue.vstr "ana@example.com") = none ∧
    (postSendWelcome (JSValue.vstr "Ana") (JSValue.vstr "ana@example.com")
        (SendOutcome.thrown "provider exploded")).status = 500 ∧
    (postSendWelcome (JSValue.vstr "Ana") (JSValue.vstr "ana@example.com")
        (SendOutcome.thrown "provider exploded")).sucesso = false ∧
    (postSendWelcome (JSValue.vstr "Ana") (JSValue.vstr "ana@example.com")
        (SendOutcome.thrown "provider exploded")).mensagem =
      "Erro interno do servidor ao enviar email" := by
  have h := c8_provider_failure "Ana" "ana@example.com" "provider exploded"
    (SendOutcome.thrown "provider exploded") (by decide) (Or.inr rfl)
  exact ⟨by decide, h.1, h.2.1, h.2.2.1⟩

/-- C9: for every validated request whose send capability succeeds with a
provider id, the response is status 200 with sucesso true, a message that
contains the submitted name as a substring, and the provider-assigned id. -/
theorem c9_success_response (s e sid : String)
    (hv : codeValidate (JSValue.vstr s) (JSValue.vstr e) = none) :
    (postSendWelcome (JSValue.vstr s) (JSValue.vstr e)
        (SendOutcome.success sid)).status = 200 ∧
    (postSendWelcome (JSValue.vstr s) (JSValue.vstr e)
        (SendOutcome.success sid)).sucesso = true ∧
    (postSendWelcome (JSValue.vstr s) (JSValue.vstr e)
        (SendOutcome.success sid)).mensagem =
      "Boas-vindas enviadas para " ++ s ++ "! Verifique seu email." ∧
    (∃ pre post : List Char,
      (postSendWelcome (JSValue.vstr s) (JSValue.vstr e)
        (SendOutcome.success sid)).mensagem.data = pre ++ (s.data ++ post)) ∧
    (postSendWelcome (JSValue.vstr s) (JSValue.vstr e)
        (SendOutcome.success sid)).emailId = some sid := by
  obtain ⟨hs, he, ht, hlen⟩ := (codeValidate_none_iff s e).mp hv
  rw [postSendWelcome_vstr s e _ hs he ht, if_neg (Nat.not_lt.mpr hlen)]
  refine ⟨rfl, rfl, rfl,
    ⟨("Boas-vindas enviadas para " : String).data,
     ("! Verifique seu email." : String).data, ?_⟩, rfl⟩
  show (("Boas-vindas enviadas para " ++ s ++ "! Verifique seu email." : String)).data = _
  rw [string_data_append, string_data_append]
  simp

theorem c9_success_response_witness :
    codeValidate (JSValue.vstr "Ana") (JSValue.vstr "ana@example.com") = none ∧
    (postSendWelcome (JSValue.vstr "Ana") (JSValue.vstr "ana@example.com")
        (SendOutcome.success "abc123")).status = 200 ∧
    (postSendWelcome (JSValue.vstr "Ana") (JSValue.vstr "ana@example.com")
        (SendOutcome.success "abc123")).sucesso = true ∧
    (postSendWelcome (JSValue.vstr "Ana") (JSValue.vstr "ana@example.com")
        (SendOutcome.success "abc123")).mensagem =
      "Boas-vindas enviadas para Ana! Verifique seu email." ∧
    (postSendWelcome (JSValue.vstr "Ana") (JSValue.vstr "ana@example.com")
        (SendOutcome.success "abc123")).emailId = some "abc123" := by
  have h := c9_success_response "Ana" "ana@example.com" "abc123" (by decide)
  refine ⟨by decide, h.1, h.2.1, ?_, h.2.2.2.2⟩
  rw [h.2.2.1]
  decide

/-- C10 (implicit): a truthy numeric name together with an email passing the
format check is not answered with a 400 validation error: the attempt to
trim the non-string name throws, the catch block answers with the generic
500, and the send capability is never invoked. -/
theorem c10_nonstring_name (n : Int) (e : String) (send : SendOutcome)
    (hn : n ≠ 0) (he : emailRegexTest e = true) :
    (postSendWelcome (JSValue.vnum n) (JSValue.vstr e) send).status = 500 ∧
    (postSendWelcome (JSValue.vnum n) (JSValue.vstr e) send).sucesso = false ∧
    (postSendWelcome (JSValue.vnum n) (JSValue.vstr e) send).mensagem =
      "Erro interno do servidor ao enviar email" ∧
    (postSendWelcome (JSValue.vnum n) (JSValue.vstr e) send).sendInvoked = false ∧
    (postSendWelcome (JSValue.vnum n) (JSValue.vstr e) send).status ≠ 400 := by
  have hee : e ≠ "" := by
    intro hx
    subst hx
    rw [show emailRegexTest "" = false from by decide] at he
    cases he
  rw [postSendWelcome_vnum n (JSValue.vstr e) send hn (by simp [truthy, hee]) he]
  exact ⟨rfl, rfl, rfl, rfl, by decide⟩

theorem c10_nonstring_name_witness :
    (7 : Int) ≠ 0 ∧
    emailRegexTest "a@b.co" = true ∧
    (postSendWelcome (JSValue.vnum 7) (JSValue.vstr "a@b.co")
        (SendOutcome.success "id")).status = 500 ∧
    (postSendWelcome (JSValue.vnum 7) (JSValue.vstr "a@b.co")
        (SendOutcome.success "id")).sendInvoked = false := by
  have h := c10_nonstring_name 7 "a@b.co" (SendOutcome.success "id")
    (by decide) (by decide)
  exact ⟨by decide, by decide, h.1, h.2.2.2.1⟩

/-- C5: rendering substitutes the name for every occurrence of the
placeholder token: the subject is unchanged and contains no token, each
body decomposes into its token-free template segments around the inserted
name (so every occurrence was replaced), the handler renders with the
whitespace-trimmed name, and the concrete example replaces both
occurrences. The decomposition is stated for names without `$`, which
`replace` would treat as a replacement pattern. -/
theorem c5_render_substitution (n : String) (hd : n.data.contains '$' = false) :
    (renderMessage n).assunto = mensagemAssunto ∧
    containsTok tokenJs.data (renderMessage n).assunto.data = false ∧
    (renderMessage n).texto.data = textoSeg0.data ++ (n.data ++ textoSeg1.data) ∧
    (renderMessage n).html.data = htmlSeg0.data ++ (n.data ++ htmlSeg1.data) ∧
    containsTok tokenJs.data textoSeg0.data = false ∧
    containsTok tokenJs.data textoSeg1.data = false ∧
    containsTok tokenJs.data htmlSeg0.data = false ∧
    containsTok tokenJs.data htmlSeg1.data = false ∧
    (∀ s e sid, codeValidate (JSValue.vstr s) (JSValue.vstr e) = none →
      (postSendWelcome (JSValue.vstr s) (JSValue.vstr e)
        (SendOutcome.success sid)).rendered = some (renderMessage (jsTrim s))) ∧
    jsReplace "Hi \x7b\x7bnome\x7d\x7d, \x7b\x7bnome\x7d\x7d!" tokenJs "Sam" =
      "Hi Sam, Sam!" ∧
    containsTok tokenJs.data
      (jsReplace "Hi \x7b\x7bnome\x7d\x7d, \x7b\x7bnome\x7d\x7d!" tokenJs "Sam").data =
      false := by
  refine ⟨rfl, containsTok_assunto, renderMessage_texto_name n hd,
    renderMessage_html_name n hd, containsTok_textoSeg0, containsTok_textoSeg1,
    containsTok_htmlSeg0, containsTok_htmlSeg1, ?_, by decide, by decide⟩
  intro s e sid hv
  obtain ⟨hs, he, ht, hlen⟩ := (codeValidate_none_iff s e).mp hv
  rw [postSendWelcome_vstr s e _ hs he ht, if_neg (Nat.not_lt.mpr hlen)]

theorem c5_render_substitution_witness :
    ("Sam" : String).data.contains '$' = false ∧
    (renderMessage "Sam").texto.data =
      textoSeg0.data ++ (("Sam" : String).data ++ textoSeg1.data) ∧
    jsReplace "Hi \x7b\x7bnome\x7d\x7d, \x7b\x7bnome\x7d\x7d!" tokenJs "Sam" =
      "Hi Sam, Sam!" :=
  have h := c5_render_substitution "Sam" (by decide)
  ⟨by decide, h.2.2.1, h.2.2.2.2.2.2.2.2.2.1⟩

/-- C6, counterexample: the two-character name consisting of a dollar sign
and an ampersand passes the whole validation unchanged by trimming, yet the
rendered text body still contains the placeholder token: the replacement
string is the ECMAScript pattern that re-inserts the matched text. -/
theorem c6_counterexample :
    codeValidate (JSValue.vstr "$&") (JSValue.vstr "a@b.co") = none ∧
    jsTrim "$&" = "$&" ∧
    containsTok tokenJs.data (renderMessage "$&").texto.data = true := by
  refine ⟨by decide, by decide, ?_⟩
  rw [renderMessage_texto "$&", show ("$&" : String).data = ['$', '&'] from rfl,
    expand_dollarAmp, containsTok_iff]
  exact ⟨textoSeg0.data, textoSeg1.data, by simp⟩

/-- C6, amended: for every name that does not itself contain the
placeholder token and contains no dollar character, the rendered message
contains no occurrence of the token in any of its three parts —
substitution is global, not first-match. -/
theorem c6_no_token (n : String)
    (hn : containsTok tokenJs.data n.data = false)
    (hd : n.data.contains '$' = false) :
    containsTok tokenJs.data (renderMessage n).assunto.data = false ∧
    containsTok tokenJs.data (renderMessage n).texto.data = false ∧
    containsTok tokenJs.data (renderMessage n).html.data = false := by
  refine ⟨containsTok_assunto, ?_, ?_⟩
  · rw [renderMessage_texto_name n hd]
    exact no_token_between tokenJs.data textoSeg0.data textoSeg1.data n.data
      containsTok_textoSeg0 containsTok_textoSeg1 hn noMidSuf_textoSeg0 noMidPre_textoSeg1
  · rw [renderMessage_html_name n hd]
    exact no_token_between tokenJs.data htmlSeg0.data htmlSeg1.data n.data
      containsTok_htmlSeg0 containsTok_htmlSeg1 hn noMidSuf_htmlSeg0 noMidPre_htmlSeg1

theorem c6_no_token_witness :
    containsTok tokenJs.data ("Bob" : String).data = false ∧
    ("Bob" : String).data.contains '$' = false ∧
    containsTok tokenJs.data (renderMessage "Bob").texto.data = false ∧
    containsTok tokenJs.data (renderMessage "Bob").html.data = false :=
  have h := c6_no_token "Bob" (by decide) (by decide)
  ⟨by decide, by decide, h.2.1, h.2.2⟩
